import Mathlib

/-!
Shallow embedding of `src/audio_splitter_gui.py` (ZQSFX Audio Splitter).

The program batch-splits multi-channel WAV files into mono WAV files.  The
logic verified here is the worker `split_audio_files` together with its
helpers `get_sample_fmt`, the inline `codec_mapping`, the `.wav` filename
filter, `os.path.splitext`-based output naming, and the progress formula.

External effects (pydub/ffmpeg/ffprobe, the filesystem, Tk) are modelled by
an environment that records, per directory entry, the outcomes of the calls
the code makes: whether `AudioSegment.from_file` succeeds, the probed
`bits_per_sample` (`none` = ffprobe failure), `frame_rate`, `channels`,
whether `split_to_mono` succeeds, and which channel exports raise.
`split_to_mono` on a segment with `channels` channels yields a list of
`channels` mono segments, which is how pydub behaves and how the code uses
it.  Python float arithmetic in the progress formula is modelled exactly:
an IEEE binary64 value is kept as a scaled integer m * 2^u, the int/int
true division and the multiplication by 100 are each rounded to nearest,
ties to even, and `int` truncates toward zero.
-/

namespace ZQSFX

/-- One entry of `os.listdir(input_dir)`, together with the outcomes of the
external calls the worker would make on it. -/
structure FileInfo where
  name : String
  isFile : Bool
  loadOk : Bool
  frameRate : Nat
  channels : Nat
  bitsPerSample : Option Nat
  splitOk : Bool
  exportFails : List Nat
deriving Repr, DecidableEq

/-- A message posted to the GUI `message_queue`: `("error", title, text)` or
`("info", title, text)`. -/
inductive Msg where
  | error (title text : String) : Msg
  | info (title text : String) : Msg
deriving Repr, DecidableEq

/-- A file written by `channel.export`: directory, basename, the frame rate
tagged onto the segment, and the codec passed via `-c:a`. -/
structure OutFile where
  dir : String
  fileName : String
  sampleRate : Nat
  codec : String
deriving Repr, DecidableEq

/-- Environment of one `split_audio_files` run. -/
structure Env where
  ffmpegOk : Bool
  inputDirExists : Bool
  entries : List FileInfo
  inputDir : String
  outputDir : String
  totalFiles : Nat
deriving Repr, DecidableEq

/-- Observable result of one `split_audio_files` run: the queue messages,
the exported files, the successive values set on `progress_var`, and
whether `os.makedirs(output_dir, exist_ok=True)` was reached. -/
structure BatchResult where
  messages : List Msg
  outputs : List OutFile
  progressUpdates : List Nat
  outputDirCreated : Bool
deriving Repr, DecidableEq

/-- Python `f.lower()`, per character (ASCII case mapping), as a char list. -/
def lowerChars (s : String) : List Char :=
  s.toList.map Char.toLower

/-- Python `s.endswith(t)` on char lists. -/
def endsWithChars (s t : List Char) : Bool :=
  s.drop (s.length - t.length) == t

/-- The filter of `split_audio_files` line 271-275 and `run_splitter` line
482-486: `os.path.isfile(...) and f.lower().endswith(".wav")`. -/
def isWavEntry (f : FileInfo) : Bool :=
  f.isFile && endsWithChars (lowerChars f.name) [ '.', 'w', 'a', 'v' ]

/-- `wav_files`: the entries of `os.listdir(input_dir)` that pass the
filter, in listing order. -/
def wavFiles (entries : List FileInfo) : List FileInfo :=
  entries.filter isWavEntry

/-- Index of the last `.` in a char list, if any. -/
def lastDotIdx (cs : List Char) : Option Nat :=
  ((List.range cs.length).filter (fun i => cs.getD i ' ' = '.')).getLast?

/-- `os.path.splitext(p)[0]` for a bare filename (no path separators):
split at the last dot unless every character before it is a dot. -/
def splitextRoot (s : String) : String :=
  let cs := s.toList
  match lastDotIdx cs with
  | none => s
  | some i =>
      if (List.range i).all (fun j => cs.getD j ' ' = '.') then s
      else String.mk (cs.take i)

/-- `get_sample_fmt` (line 164-187): the bits-per-sample to sample-format
lookup `{8: "s8", 16: "s16", 24: "s24", 32: "s32"}` with `None` default. -/
def get_sample_fmt (bits : Nat) : Option String :=
  if bits = 8 then some "s8"
  else if bits = 16 then some "s16"
  else if bits = 24 then some "s24"
  else if bits = 32 then some "s32"
  else none

/-- `codec_mapping` (line 359-364). -/
def codec_mapping : List (String × String) :=
  [("s8", "pcm_s8"), ("s16", "pcm_s16le"), ("s24", "pcm_s24le"),
   ("s32", "pcm_s32le")]

/-- `codec_mapping.get(sample_fmt, "pcm_s16le")` (line 365-367). -/
def codecFor (sampleFmt : String) : String :=
  match codec_mapping.lookup sampleFmt with
  | some c => c
  | none => "pcm_s16le"

/-- POSIX `os.path.join` for the paths this program builds. -/
def pathJoin (d f : String) : String :=
  d ++ "/" ++ f

/-- `f"{base_name}_chan{channel_number}.wav"` (line 371-372). -/
def chanName (wavFile : String) (channelNumber : Nat) : String :=
  splitextRoot wavFile ++ "_chan" ++ toString channelNumber ++ ".wav"

def msgFfmpegMissing : Msg :=
  .error "Error" "FFmpeg and/or FFprobe not found."

def msgNoInputDir (d : String) : Msg :=
  .error "Error" ("Input directory " ++ d ++ " does not exist.")

def msgNoWav (d : String) : Msg :=
  .error "Error" ("No .wav files found in directory " ++ d ++ ".")

def msgLoadError (path : String) : Msg :=
  .error "Error" ("Error loading audio file " ++ path)

def msgNoBitDepth (name : String) : Msg :=
  .error "Error" ("Could not determine bit depth of " ++ name)

def msgSplitError (name : String) : Msg :=
  .error "Error" ("Error splitting channels for " ++ name)

def msgUnsupportedDepth (bits : Nat) (name : String) : Msg :=
  .error "Error"
    ("Unsupported bit depth: " ++ toString bits ++ " bits in " ++ name)

def msgExportError (path : String) : Msg :=
  .error "Error" ("Error exporting file " ++ path)

def msgSuccess (outDir : String) : Msg :=
  .info "Success"
    ("Audio files have been successfully split.\nOutput Directory: "
      ++ outDir)

/-- One iteration of the channel loop (line 340-395) for `channel_idx`:
`get_sample_fmt` failure posts an error and skips; otherwise the codec is
looked up, the output name built, the frame rate set, and the export either
raises (an error is posted) or writes the file. -/
def channelStep (outputDir : String) (f : FileInfo) (bits : Nat)
    (channelIdx : Nat) : List Msg × List OutFile :=
  match get_sample_fmt bits with
  | none => ([msgUnsupportedDepth bits f.name], [])
  | some sampleFmt =>
      let codec := codecFor sampleFmt
      let outName := chanName f.name (channelIdx + 1)
      if channelIdx ∈ f.exportFails then
        ([msgExportError (pathJoin outputDir outName)], [])
      else
        ([], [⟨outputDir, outName, f.frameRate, codec⟩])

/-- The body of the file loop (line 286-395) for one `wav_file`: load, probe
bit depth, split to mono, then run the channel loop over
`range f.channels` mono segments.  Returns the messages posted for this
file and the files it exported. -/
def processFile (inputDir outputDir : String) (f : FileInfo) :
    List Msg × List OutFile :=
  if f.loadOk = false then
    ([msgLoadError (pathJoin inputDir f.name)], [])
  else
    match f.bitsPerSample with
    | none => ([msgNoBitDepth f.name], [])
    | some bits =>
        if f.splitOk = false then
          ([msgSplitError f.name], [])
        else
          let steps := (List.range f.channels).map
            (channelStep outputDir f bits)
          (steps.flatMap Prod.fst, steps.flatMap Prod.snd)

/-- Round-half-to-even of num/den (den positive): the integer nearest to
num/den, even on ties. -/
def roundHalfEven (num den : Nat) : Nat :=
  let n := num / den
  let r := num % den
  if 2 * r < den then n
  else if den < 2 * r then n + 1
  else if n % 2 = 0 then n else n + 1

/-- Floor of log2 on Nat by structural recursion on a fuel argument, so
that it reduces definitionally; halving reaches 1 well within fuel = n. -/
def log2Fuel (fuel n : Nat) : Nat :=
  match fuel with
  | 0 => 0
  | f + 1 => if n ≤ 1 then 0 else log2Fuel f (n / 2) + 1

/-- Floor of log2 of a positive Nat (0 for 0). -/
def natLog2 (n : Nat) : Nat :=
  log2Fuel n n

/-- Floor of the base-2 logarithm of the positive rational a/b: the unique
e with 2^e ≤ a/b < 2^(e+1), found from the bit lengths of a and b and one
comparison. -/
def ratLog2 (a b : Nat) : Int :=
  let d : Int := (natLog2 a : Int) - (natLog2 b : Int)
  let ge : Bool :=
    if 0 ≤ d then decide (b * 2 ^ d.toNat ≤ a)
    else decide (b ≤ a * 2 ^ (-d).toNat)
  if ge then d else d - 1

/-- Round the nonnegative rational a/b (b positive) to the nearest IEEE
binary64 value, ties to even, subnormals included: the result (m, u)
denotes the exact value m * 2^u, with the unit exponent u clamped at the
subnormal limit -1074. -/
def roundB64 (a b : Nat) : Nat × Int :=
  let u : Int := max (ratLog2 a b - 52) (-1074)
  if 0 ≤ u then (roundHalfEven a (b * 2 ^ u.toNat), u)
  else (roundHalfEven (a * 2 ^ (-u).toNat) b, u)

/-- `progress = int(((idx + 1) / total_files) * 100)` (line 290) under
Python IEEE binary64 arithmetic: the int/int true division is correctly
rounded to a double, the multiplication by 100 is rounded again, and `int`
truncates toward zero.  A zero `total_files`, where Python would raise
ZeroDivisionError, is given the conventional value 0; every theorem below
that reads progress values ties `total_files` to the positive batch size,
as `run_splitter` passes it. -/
def progressAt (idx totalFiles : Nat) : Nat :=
  if totalFiles = 0 then 0
  else
    let d1 := roundB64 (idx + 1) totalFiles
    let d2 :=
      if 0 ≤ d1.snd then roundB64 (d1.fst * 100 * 2 ^ d1.snd.toNat) 1
      else roundB64 (d1.fst * 100) (2 ^ (-d1.snd).toNat)
    if 0 ≤ d2.snd then d2.fst * 2 ^ d2.snd.toNat
    else d2.fst / 2 ^ (-d2.snd).toNat

/-- `split_audio_files` (line 235-414).  Guards in source order: transcoder
availability, input directory existence, `os.makedirs(output_dir)`, then
the emptiness check on `wav_files`; then the file loop, the final progress
write of 100, and the success message. -/
def split_audio_files (env : Env) : BatchResult :=
  if env.ffmpegOk = false then
    ⟨[msgFfmpegMissing], [], [], false⟩
  else if env.inputDirExists = false then
    ⟨[msgNoInputDir env.inputDir], [], [], false⟩
  else
    let files := wavFiles env.entries
    if files.isEmpty then
      ⟨[msgNoWav env.inputDir], [], [], true⟩
    else
      ⟨(files.flatMap fun f => (processFile env.inputDir env.outputDir f).fst)
          ++ [msgSuccess env.outputDir],
       files.flatMap fun f => (processFile env.inputDir env.outputDir f).snd,
       ((List.range files.length).map fun idx =>
          progressAt idx env.totalFiles) ++ [100],
       true⟩

/-- `total_files` as computed by `run_splitter` (line 482-487):
`len(wav_files) if wav_files else 1`. -/
def run_splitter_total (entries : List FileInfo) : Nat :=
  if (wavFiles entries).isEmpty then 1 else (wavFiles entries).length

def isErrorMsg : Msg → Bool
  | .error _ _ => true
  | .info _ _ => false

def isInfoMsg : Msg → Bool
  | .error _ _ => false
  | .info _ _ => true

/-- Fixture: a stereo 16-bit file for which every external call succeeds. -/
def wGood : FileInfo :=
  ⟨"tone.wav", true, true, 44100, 2, some 16, true, []⟩

/-- Fixture: a three-channel file probed at an unsupported 20 bits. -/
def wBad20 : FileInfo :=
  ⟨"odd.wav", true, true, 48000, 3, some 20, true, []⟩

/-- Fixture: a regular file that is not a `.wav`. -/
def wTxt : FileInfo :=
  ⟨"notes.txt", true, true, 44100, 1, some 16, true, []⟩

/-- Fixture: an uppercase-extension WAV entry. -/
def wUpper : FileInfo :=
  ⟨"LOUD.WAV", true, true, 22050, 1, some 24, true, []⟩

/-- Fixture run: one fully successful file. -/
def envGood : Env :=
  ⟨true, true, [wGood], "in", "out", 1⟩

/-- Fixture run: an unsupported-depth file followed by a good file. -/
def envMixed : Env :=
  ⟨true, true, [wBad20, wGood], "in", "out", 2⟩

/-- Fixture run: only the unsupported-depth file. -/
def envBadOnly : Env :=
  ⟨true, true, [wBad20], "in", "out", 1⟩

/-- Fixture run: the input directory holds no `.wav` file. -/
def envNoWav : Env :=
  ⟨true, true, [wTxt], "in", "out", 1⟩

/-- Fixture run: the input directory does not exist. -/
def envNoDir : Env :=
  ⟨true, false, [wGood], "in", "out", 1⟩

/-- Fixture output: first channel of `wGood` in `envGood`. -/
def outGood1 : OutFile :=
  ⟨"out", "tone_chan1.wav", 44100, "pcm_s16le"⟩

/-- Flattening the first components of per-channel steps that each export
one file and post no message gives no messages. -/
theorem flatMap_fst_pure {α : Type} (l : List α) (g : α → OutFile) :
    ((l.map fun i => (([] : List Msg), [g i])).flatMap Prod.fst) = [] := by
  induction l with
  | nil => rfl
  | cons a t ih =>
      simp only [List.map_cons, List.flatMap_cons, ih]
      rfl

/-- Flattening the second components of per-channel steps that each export
one file gives exactly one output per step. -/
theorem flatMap_snd_pure {α : Type} (l : List α) (g : α → OutFile) :
    ((l.map fun i => (([] : List Msg), [g i])).flatMap Prod.snd) = l.map g := by
  induction l with
  | nil => rfl
  | cons a t ih =>
      simp only [List.map_cons, List.flatMap_cons, ih]
      rfl

/-- Flattening the first components of per-channel steps that each post one
error and export nothing gives one message per step. -/
theorem flatMap_fst_errs {α : Type} (l : List α) (m : Msg) :
    ((l.map fun _ => ([m], ([] : List OutFile))).flatMap Prod.fst) =
      l.map fun _ => m := by
  induction l with
  | nil => rfl
  | cons a t ih =>
      simp only [List.map_cons, List.flatMap_cons, ih]
      rfl

/-- Flattening the second components of per-channel steps that each post one
error and export nothing gives no outputs. -/
theorem flatMap_snd_errs {α : Type} (l : List α) (m : Msg) :
    ((l.map fun _ => ([m], ([] : List OutFile))).flatMap Prod.snd) = [] := by
  induction l with
  | nil => rfl
  | cons a t ih =>
      simp only [List.map_cons, List.flatMap_cons, ih]
      rfl

/-- On a file whose load, probe, split and every export succeed, the file
loop posts no message and exports one file per channel, each tagged with
the original frame rate and the codec of the probed bit depth. -/
theorem processFile_good {din dout : String} {f : FileInfo} {b : Nat}
    {sampleFmt : String}
    (hl : f.loadOk = true) (hb : f.bitsPerSample = some b)
    (hfmt : get_sample_fmt b = some sampleFmt) (hs : f.splitOk = true)
    (he : f.exportFails = []) :
    processFile din dout f =
      ([], (List.range f.channels).map fun i =>
        ⟨dout, chanName f.name (i + 1), f.frameRate, codecFor sampleFmt⟩) := by
  unfold processFile
  rw [hl, hb]
  simp only [Bool.true_eq_false, if_false, hs]
  unfold channelStep
  rw [hfmt]
  simp only [he, List.not_mem_nil, if_false]
  exact Prod.ext (flatMap_fst_pure _ _) (flatMap_snd_pure _ _)

/-- On a file that loads and splits but whose probed bit depth is outside
the lookup table, the channel loop posts one error per channel and exports
nothing. -/
theorem processFile_unsupported {din dout : String} {f : FileInfo} {b : Nat}
    (hl : f.loadOk = true) (hb : f.bitsPerSample = some b)
    (hfmt : get_sample_fmt b = none) (hs : f.splitOk = true) :
    processFile din dout f =
      ((List.range f.channels).map fun _ => msgUnsupportedDepth b f.name,
       []) := by
  unfold processFile
  rw [hl, hb]
  simp only [Bool.true_eq_false, if_false, hs]
  unfold channelStep
  rw [hfmt]
  exact Prod.ext (flatMap_fst_errs _ _) (flatMap_snd_errs _ _)

/-- Every message a channel-loop iteration posts is an error. -/
theorem channelStep_fst_error {dout : String} {f : FileInfo} {bits i : Nat}
    {m : Msg} (hm : m ∈ (channelStep dout f bits i).fst) :
    isErrorMsg m = true := by
  unfold channelStep at hm
  cases hfmt : get_sample_fmt bits with
  | none =>
      rw [hfmt] at hm
      simp only [List.mem_singleton] at hm
      subst hm; rfl
  | some sampleFmt =>
      rw [hfmt] at hm
      by_cases he : i ∈ f.exportFails
      · simp only [if_pos he, List.mem_singleton] at hm
        subst hm; rfl
      · simp only [if_neg he, List.not_mem_nil] at hm

/-- Every output of a channel-loop iteration carries the original frame
rate, the output directory, the per-channel name, and the codec looked up
from the probed bit depth. -/
theorem mem_channelStep_snd {dout : String} {f : FileInfo} {bits i : Nat}
    {o : OutFile} (ho : o ∈ (channelStep dout f bits i).snd) :
    ∃ sampleFmt, get_sample_fmt bits = some sampleFmt
      ∧ o = ⟨dout, chanName f.name (i + 1), f.frameRate, codecFor sampleFmt⟩ := by
  unfold channelStep at ho
  cases hfmt : get_sample_fmt bits with
  | none =>
      rw [hfmt] at ho
      simp at ho
  | some sampleFmt =>
      rw [hfmt] at ho
      by_cases he : i ∈ f.exportFails
      · simp only [if_pos he, List.not_mem_nil] at ho
      · simp only [if_neg he, List.mem_singleton] at ho
        exact ⟨sampleFmt, rfl, ho⟩

/-- Every message the file loop posts for one file is an error. -/
theorem processFile_fst_error {din dout : String} {f : FileInfo} {m : Msg}
    (hm : m ∈ (processFile din dout f).fst) : isErrorMsg m = true := by
  unfold processFile at hm
  by_cases hl : f.loadOk = false
  · simp only [if_pos hl, List.mem_singleton] at hm
    subst hm; rfl
  · simp only [if_neg hl] at hm
    cases hbp : f.bitsPerSample with
    | none =>
        rw [hbp] at hm
        simp only [List.mem_singleton] at hm
        subst hm; rfl
    | some bits =>
        rw [hbp] at hm
        by_cases hs : f.splitOk = false
        · simp only [if_pos hs, List.mem_singleton] at hm
          subst hm; rfl
        · simp only [if_neg hs, List.mem_flatMap, List.mem_map] at hm
          obtain ⟨p, ⟨i, _, hp⟩, hmp⟩ := hm
          subst hp
          exact channelStep_fst_error hmp

/-- Every output the file loop produces for one file carries the original
frame rate, output directory, per-channel name, and table codec. -/
theorem mem_processFile_snd {din dout : String} {f : FileInfo} {o : OutFile}
    (ho : o ∈ (processFile din dout f).snd) :
    ∃ b sampleFmt i, f.bitsPerSample = some b
      ∧ get_sample_fmt b = some sampleFmt
      ∧ i < f.channels
      ∧ o = ⟨dout, chanName f.name (i + 1), f.frameRate, codecFor sampleFmt⟩ := by
  unfold processFile at ho
  by_cases hl : f.loadOk = false
  · simp only [if_pos hl, List.not_mem_nil] at ho
  · simp only [if_neg hl] at ho
    cases hbp : f.bitsPerSample with
    | none =>
        rw [hbp] at ho
        simp only [List.not_mem_nil] at ho
    | some bits =>
        rw [hbp] at ho
        by_cases hs : f.splitOk = false
        · simp only [if_pos hs, List.not_mem_nil] at ho
        · simp only [if_neg hs, List.mem_flatMap, List.mem_map] at ho
          obtain ⟨p, ⟨i, hi, hp⟩, hop⟩ := ho
          subst hp
          obtain ⟨sampleFmt, hfmt, heq⟩ := mem_channelStep_snd hop
          exact ⟨bits, sampleFmt, i, rfl, hfmt, List.mem_range.mp hi, heq⟩

/-- With all three guards passing, `split_audio_files` runs the file loop:
messages are the per-file messages followed by the success message, outputs
are the per-file outputs, progress is the per-index formula then 100. -/
theorem split_run {env : Env} (hff : env.ffmpegOk = true)
    (hdir : env.inputDirExists = true)
    (hne : (wavFiles env.entries).isEmpty = false) :
    split_audio_files env =
      ⟨((wavFiles env.entries).flatMap fun f =>
          (processFile env.inputDir env.outputDir f).fst)
        ++ [msgSuccess env.outputDir],
       (wavFiles env.entries).flatMap fun f =>
          (processFile env.inputDir env.outputDir f).snd,
       ((List.range (wavFiles env.entries).length).map fun idx =>
          progressAt idx env.totalFiles) ++ [100],
       true⟩ := by
  simp [split_audio_files, hff, hdir, hne]

/-- An error before a message is not kept by the info filter. -/
theorem filter_info_of_error {l : List Msg}
    (h : ∀ m ∈ l, isErrorMsg m = true) : l.filter isInfoMsg = [] := by
  induction l with
  | nil => rfl
  | cons a t ih =>
      have ha := h a (List.mem_cons_self a t)
      have ha2 : isInfoMsg a = false := by
        cases a with
        | error x y => rfl
        | info x y => exact absurd ha (by simp [isErrorMsg])
      rw [List.filter_cons, ha2]
      simp only [Bool.false_eq_true, if_false]
      exact ih fun m hm => h m (List.mem_cons_of_mem a hm)

/-- The concatenated per-file message streams contain no info message. -/
theorem filter_info_flatMap {din dout : String} {l : List FileInfo} :
    ((l.flatMap fun f => (processFile din dout f).fst).filter isInfoMsg)
      = [] := by
  refine filter_info_of_error fun m hm => ?_
  rw [List.mem_flatMap] at hm
  obtain ⟨f, _, hmf⟩ := hm
  exact processFile_fst_error hmf

/-- Unfolding one cons cell of an association-list lookup. -/
theorem lookup_step (sampleFmt k v : String) (r : List (String × String)) :
    List.lookup sampleFmt ((k, v) :: r) =
      if sampleFmt = k then some v else List.lookup sampleFmt r := by
  by_cases h : sampleFmt = k
  · subst h
    simp [List.lookup]
  · have hb : (sampleFmt == k) = false := beq_eq_false_iff_ne.mpr h
    simp [List.lookup, hb, h]

/-- `codec_mapping` lookup as an explicit case split on the key. -/
theorem lookup_codec_eq (sampleFmt : String) :
    codec_mapping.lookup sampleFmt =
      if sampleFmt = "s8" then some "pcm_s8"
      else if sampleFmt = "s16" then some "pcm_s16le"
      else if sampleFmt = "s24" then some "pcm_s24le"
      else if sampleFmt = "s32" then some "pcm_s32le"
      else none := by
  unfold codec_mapping
  rw [lookup_step, lookup_step, lookup_step, lookup_step]
  simp [List.lookup]

/-- A sample format produced by `get_sample_fmt` is always a key of
`codec_mapping`, and `codecFor` returns its table value. -/
theorem lookup_codecFor {b : Nat} {sampleFmt : String}
    (h : get_sample_fmt b = some sampleFmt) :
    codec_mapping.lookup sampleFmt = some (codecFor sampleFmt) := by
  unfold get_sample_fmt at h
  split_ifs at h <;> injection h with h2 <;> subst h2 <;> rfl

/-- Claim C4: every output file of a run carries the sample rate probed
from its input file: `channel.set_frame_rate(original_frame_rate)` is
applied before each export, so output sample rate equals the input's
original sample rate. -/
theorem C4_sample_rate_preserved (env : Env) (o : OutFile)
    (ho : o ∈ (split_audio_files env).outputs) :
    ∃ f, f ∈ wavFiles env.entries
      ∧ o ∈ (processFile env.inputDir env.outputDir f).snd
      ∧ o.sampleRate = f.frameRate := by
  by_cases hff : env.ffmpegOk = true
  · by_cases hdir : env.inputDirExists = true
    · by_cases hne : (wavFiles env.entries).isEmpty = false
      · rw [split_run hff hdir hne] at ho
        rw [List.mem_flatMap] at ho
        obtain ⟨f, hf, hof⟩ := ho
        obtain ⟨b, sampleFmt, i, _, _, _, heq⟩ := mem_processFile_snd hof
        exact ⟨f, hf, hof, by rw [heq]⟩
      · have hemp : (wavFiles env.entries).isEmpty = true := by
          simpa using hne
        simp [split_audio_files, hff, hdir, hemp] at ho
    · have hd : env.inputDirExists = false := by simpa using hdir
      simp [split_audio_files, hff, hd] at ho
  · have hf : env.ffmpegOk = false := by simpa using hff
    simp [split_audio_files, hf] at ho

/-- Witness for C4 at the concrete run `envGood`. -/
theorem C4_sample_rate_preserved_witness :
    ∃ f, f ∈ wavFiles envGood.entries
      ∧ outGood1 ∈ (processFile envGood.inputDir envGood.outputDir f).snd
      ∧ outGood1.sampleRate = f.frameRate :=
  C4_sample_rate_preserved envGood outGood1 (by decide)

/-- Claim C5: the bit-depth to sample-format to codec mapping is the fixed
lookup table 8/16/24/32 to s8/s16/s24/s32 to pcm_s8/pcm_s16le/pcm_s24le/
pcm_s32le, and every other bit depth is unsupported. -/
theorem C5_fixed_lookup_table :
    (∀ b sampleFmt, get_sample_fmt b = some sampleFmt ↔
      (b, sampleFmt) ∈ [(8, "s8"), (16, "s16"), (24, "s24"), (32, "s32")])
    ∧ (∀ sampleFmt c, codec_mapping.lookup sampleFmt = some c ↔
      (sampleFmt, c) ∈ [("s8", "pcm_s8"), ("s16", "pcm_s16le"),
        ("s24", "pcm_s24le"), ("s32", "pcm_s32le")])
    ∧ (∀ b, b ∉ [8, 16, 24, 32] → get_sample_fmt b = none) := by
  refine ⟨?_, ?_, ?_⟩
  · intro b sampleFmt
    unfold get_sample_fmt
    by_cases h8 : b = 8 <;> by_cases h16 : b = 16 <;>
      by_cases h24 : b = 24 <;> by_cases h32 : b = 32 <;>
      simp_all [eq_comm]
  · intro sampleFmt c
    rw [lookup_codec_eq]
    by_cases h8 : sampleFmt = "s8" <;> by_cases h16 : sampleFmt = "s16" <;>
      by_cases h24 : sampleFmt = "s24" <;> by_cases h32 : sampleFmt = "s32" <;>
      simp_all [eq_comm]
  · intro b hb
    simp only [List.mem_cons, List.not_mem_nil, or_false, not_or] at hb
    unfold get_sample_fmt
    simp [hb.1, hb.2.1, hb.2.2.1, hb.2.2.2]

/-- Witness for C5 at concrete table rows and at the unsupported depth 20. -/
theorem C5_fixed_lookup_table_witness :
    get_sample_fmt 24 = some "s24"
    ∧ codec_mapping.lookup "s24" = some "pcm_s24le"
    ∧ get_sample_fmt 20 = none :=
  ⟨(C5_fixed_lookup_table.1 24 "s24").mpr (by decide),
   (C5_fixed_lookup_table.2.1 "s24" "pcm_s24le").mpr (by decide),
   C5_fixed_lookup_table.2.2 20 (by decide)⟩

/-- Claim C9: the enumeration keeps exactly the listing entries that are
regular files whose lowercased name ends in .wav (so .WAV and .Wav are
kept), in listing order (the kept list is a sublist of the listing). -/
theorem C9_wav_enumeration :
    (∀ (entries : List FileInfo) (f : FileInfo),
        f ∈ wavFiles entries ↔
          f ∈ entries ∧ f.isFile = true
            ∧ endsWithChars (lowerChars f.name) [ '.', 'w', 'a', 'v' ] = true)
    ∧ (∀ entries : List FileInfo, List.Sublist (wavFiles entries) entries)
    ∧ endsWithChars (lowerChars "LOUD.WAV") [ '.', 'w', 'a', 'v' ] = true
    ∧ endsWithChars (lowerChars "mix.Wav") [ '.', 'w', 'a', 'v' ] = true
    ∧ endsWithChars (lowerChars "notes.txt") [ '.', 'w', 'a', 'v' ] = false := by
  refine ⟨?_, ?_, by decide, by decide, by decide⟩
  · intro entries f
    simp [wavFiles, List.mem_filter, isWavEntry, Bool.and_eq_true,
      and_assoc]
  · intro entries
    exact List.filter_sublist entries

/-- Witness for C9: the uppercase-extension entry is enumerated. -/
theorem C9_wav_enumeration_witness :
    wUpper ∈ wavFiles [wTxt, wUpper] :=
  (C9_wav_enumeration.1 [wTxt, wUpper] wUpper).mpr
    ⟨by decide, by decide, by decide⟩

/-- Claim C10: a non-none `get_sample_fmt` result is always a key of
`codec_mapping`, so the `pcm_s16le` default of the codec lookup is never
the fallback branch: every exported channel uses the codec determined by
the probed bit depth. -/
theorem C10_no_fallback_codec :
    (∀ b sampleFmt, get_sample_fmt b = some sampleFmt →
        codec_mapping.lookup sampleFmt = some (codecFor sampleFmt))
    ∧ (∀ (din dout : String) (f : FileInfo) (o : OutFile),
        o ∈ (processFile din dout f).snd →
        ∃ b sampleFmt, f.bitsPerSample = some b
          ∧ get_sample_fmt b = some sampleFmt
          ∧ codec_mapping.lookup sampleFmt = some o.codec) := by
  refine ⟨fun b sampleFmt h => lookup_codecFor h, ?_⟩
  intro din dout f o ho
  obtain ⟨b, sampleFmt, i, hb, hfmt, _, heq⟩ := mem_processFile_snd ho
  refine ⟨b, sampleFmt, hb, hfmt, ?_⟩
  rw [heq]
  exact lookup_codecFor hfmt

/-- Witness for C10 at the concrete file `wGood` and output `outGood1`. -/
theorem C10_no_fallback_codec_witness :
    codec_mapping.lookup "s16" = some (codecFor "s16")
    ∧ ∃ b sampleFmt, wGood.bitsPerSample = some b
        ∧ get_sample_fmt b = some sampleFmt
        ∧ codec_mapping.lookup sampleFmt = some outGood1.codec :=
  ⟨C10_no_fallback_codec.1 16 "s16" (by decide),
   C10_no_fallback_codec.2 "in" "out" wGood outGood1 (by decide)⟩

/-- Claim C1: a K-channel input whose load, probe, split and exports all
succeed and whose bit depth is supported contributes exactly K output
files, named base_chan1.wav through base_chanK.wav (base the filename
without its extension), all placed in the output directory; the run's
output list is the concatenation of the per-file contributions. -/
theorem C1_one_output_per_channel (env : Env) (f : FileInfo) (b : Nat)
    (hff : env.ffmpegOk = true) (hdir : env.inputDirExists = true)
    (hne : (wavFiles env.entries).isEmpty = false)
    (hf : f ∈ wavFiles env.entries)
    (hl : f.loadOk = true) (hb : f.bitsPerSample = some b)
    (hsup : b = 8 ∨ b = 16 ∨ b = 24 ∨ b = 32)
    (hs : f.splitOk = true) (he : f.exportFails = []) :
    (split_audio_files env).outputs =
      ((wavFiles env.entries).flatMap fun g =>
        (processFile env.inputDir env.outputDir g).snd)
    ∧ (processFile env.inputDir env.outputDir f).snd.length = f.channels
    ∧ ((processFile env.inputDir env.outputDir f).snd.map OutFile.fileName)
        = ((List.range f.channels).map fun i =>
            splitextRoot f.name ++ "_chan" ++ toString (i + 1) ++ ".wav")
    ∧ ∀ o ∈ (processFile env.inputDir env.outputDir f).snd,
        o.dir = env.outputDir := by
  have hfmt : ∃ sampleFmt, get_sample_fmt b = some sampleFmt := by
    rcases hsup with rfl | rfl | rfl | rfl <;> exact ⟨_, rfl⟩
  obtain ⟨sampleFmt, hfmt⟩ := hfmt
  rw [split_run hff hdir hne, processFile_good hl hb hfmt hs he]
  refine ⟨rfl, by simp, ?_, ?_⟩
  · simp [List.map_map, chanName, Function.comp]
  · intro o ho
    simp only [List.mem_map, List.mem_range] at ho
    obtain ⟨i, _, ho⟩ := ho
    rw [← ho]

/-- Witness for C1 at the concrete run `envGood` (stereo 16-bit input). -/
theorem C1_one_output_per_channel_witness :
    (split_audio_files envGood).outputs =
      ((wavFiles envGood.entries).flatMap fun g =>
        (processFile envGood.inputDir envGood.outputDir g).snd)
    ∧ (processFile envGood.inputDir envGood.outputDir wGood).snd.length
        = wGood.channels
    ∧ ((processFile envGood.inputDir envGood.outputDir wGood).snd.map
          OutFile.fileName)
        = ((List.range wGood.channels).map fun i =>
            splitextRoot wGood.name ++ "_chan" ++ toString (i + 1) ++ ".wav")
    ∧ ∀ o ∈ (processFile envGood.inputDir envGood.outputDir wGood).snd,
        o.dir = envGood.outputDir :=
  C1_one_output_per_channel envGood wGood 16 (by decide) (by decide)
    (by decide) (by decide) (by decide) (by decide) (by decide) (by decide)
    (by decide)

/-- The binary64 model reproduces the double-rounding cases that exact
floor division gets wrong: Python reports int((29/50)*100) = 57 and
int((29/100)*100) = 28, because 29/50 and 29/100 round to doubles just
below the exact ratio, while exact floor division would give 58 and 29. -/
theorem progressAt_rounding_cases :
    progressAt 28 50 = 57 ∧ progressAt 28 100 = 28
    ∧ (28 + 1) * 100 / 50 = 58 ∧ (28 + 1) * 100 / 100 = 29 := by decide

/-- Claim C7: in a batch of total_files files (total_files the number of
enumerated .wav files, as `run_splitter` passes it), with the three guards
passing, the successive values set on the progress variable are
int(((idx+1)/total_files)*100) in Python binary64 arithmetic for idx
ranging over the files in order, followed by the final 100 after the
loop. -/
theorem C7_progress_formula (env : Env)
    (hff : env.ffmpegOk = true) (hdir : env.inputDirExists = true)
    (hne : (wavFiles env.entries).isEmpty = false)
    (htot : env.totalFiles = (wavFiles env.entries).length) :
    (split_audio_files env).progressUpdates =
      ((List.range (wavFiles env.entries).length).map fun idx =>
        progressAt idx env.totalFiles) ++ [100] := by
  rw [split_run hff hdir hne]

/-- Witness for C7 at the two-file run `envMixed`: 50 then 100, then the
final 100. -/
theorem C7_progress_formula_witness :
    (split_audio_files envMixed).progressUpdates =
      ((List.range (wavFiles envMixed.entries).length).map fun idx =>
        progressAt idx envMixed.totalFiles) ++ [100] :=
  C7_progress_formula envMixed (by decide) (by decide) (by decide)
    (by decide)

/-- Claim C8: a run that reaches the end of the file loop posts exactly one
info notification, the success message, whose text names the output
directory. -/
theorem C8_single_success_message (env : Env)
    (hff : env.ffmpegOk = true) (hdir : env.inputDirExists = true)
    (hne : (wavFiles env.entries).isEmpty = false) :
    ((split_audio_files env).messages.filter isInfoMsg)
      = [msgSuccess env.outputDir]
    ∧ msgSuccess env.outputDir =
        Msg.info "Success"
          ("Audio files have been successfully split.\nOutput Directory: "
            ++ env.outputDir) := by
  rw [split_run hff hdir hne]
  refine ⟨?_, rfl⟩
  rw [List.filter_append, filter_info_flatMap]
  rfl

/-- Witness for C8 at the concrete run `envGood`. -/
theorem C8_single_success_message_witness :
    ((split_audio_files envGood).messages.filter isInfoMsg)
      = [msgSuccess envGood.outputDir]
    ∧ msgSuccess envGood.outputDir =
        Msg.info "Success"
          ("Audio files have been successfully split.\nOutput Directory: "
            ++ envGood.outputDir) :=
  C8_single_success_message envGood (by decide) (by decide) (by decide)

/-- Counterexample to C2 as stated: in the run `envBadOnly`, whose single
file is a three-channel 20-bit input, the batch posts three error
notifications for that file, not exactly one: `get_sample_fmt` is checked
inside the channel loop, once per channel. -/
theorem C2_unsupported_depth_counterexample :
    ((split_audio_files envBadOnly).messages.filter isErrorMsg).length = 3
    ∧ wBad20.channels = 3
    ∧ (split_audio_files envBadOnly).outputs = [] := by decide

/-- Claim C2 amended: a file whose bit-depth probe fails yields exactly one
error notification and is skipped; a file whose probed bit depth is outside
the table yields one error notification per channel and no output files;
in both cases the batch continues, the remaining files contribute their
outputs, and the run still ends with the success message. -/
theorem C2_per_file_errors (env : Env) (f : FileInfo)
    (hff : env.ffmpegOk = true) (hdir : env.inputDirExists = true)
    (hne : (wavFiles env.entries).isEmpty = false)
    (hf : f ∈ wavFiles env.entries) :
    (f.loadOk = true → f.bitsPerSample = none →
      processFile env.inputDir env.outputDir f = ([msgNoBitDepth f.name], []))
    ∧ (∀ b, f.loadOk = true → f.bitsPerSample = some b →
        get_sample_fmt b = none → f.splitOk = true →
        (processFile env.inputDir env.outputDir f).fst =
          ((List.range f.channels).map fun _ => msgUnsupportedDepth b f.name)
        ∧ (processFile env.inputDir env.outputDir f).snd = [])
    ∧ (split_audio_files env).outputs =
        ((wavFiles env.entries).flatMap fun g =>
          (processFile env.inputDir env.outputDir g).snd)
    ∧ (split_audio_files env).messages.getLast? =
        some (msgSuccess env.outputDir) := by
  refine ⟨?_, ?_, ?_, ?_⟩
  · intro hl hb
    unfold processFile
    rw [hl, hb]
    rfl
  · intro b hl hb hfmt hs
    rw [processFile_unsupported hl hb hfmt hs]
    exact ⟨rfl, rfl⟩
  · rw [split_run hff hdir hne]
  · rw [split_run hff hdir hne]
    exact List.getLast?_concat _

/-- Witness for the amended C2 at `envMixed`: the 20-bit three-channel file
posts three errors and no outputs, while the good file's outputs survive
and the run ends with the success message. -/
theorem C2_per_file_errors_witness :
    ((processFile envMixed.inputDir envMixed.outputDir wBad20).fst =
      ((List.range wBad20.channels).map fun _ =>
        msgUnsupportedDepth 20 wBad20.name)
    ∧ (processFile envMixed.inputDir envMixed.outputDir wBad20).snd = [])
    ∧ (split_audio_files envMixed).outputs =
        ((wavFiles envMixed.entries).flatMap fun g =>
          (processFile envMixed.inputDir envMixed.outputDir g).snd)
    ∧ (split_audio_files envMixed).messages.getLast? =
        some (msgSuccess envMixed.outputDir) := by
  have h := C2_per_file_errors envMixed wBad20 (by decide) (by decide)
    (by decide) (by decide)
  exact ⟨h.2.1 20 (by decide) (by decide) (by decide) (by decide),
    h.2.2.1, h.2.2.2⟩

/-- Counterexample to C3 as stated: in the run `envNoWav`, whose input
directory exists but holds no .wav file, the single error is posted, yet
`os.makedirs(output_dir, exist_ok=True)` has already run: the output
directory is created, contradicting "no side effects on the output
directory". -/
theorem C3_empty_dir_counterexample :
    (split_audio_files envNoWav).messages = [msgNoWav envNoWav.inputDir]
    ∧ (split_audio_files envNoWav).outputDirCreated = true := by decide

/-- Claim C3 amended: an existing input directory with no .wav files makes
the batch post a single error notification, produce no output files and no
progress updates; however the output directory is still created, because
makedirs runs before the emptiness check. -/
theorem C3_empty_dir (env : Env)
    (hff : env.ffmpegOk = true) (hdir : env.inputDirExists = true)
    (hemp : (wavFiles env.entries).isEmpty = true) :
    (split_audio_files env).messages = [msgNoWav env.inputDir]
    ∧ (split_audio_files env).outputs = []
    ∧ (split_audio_files env).progressUpdates = []
    ∧ (split_audio_files env).outputDirCreated = true := by
  unfold split_audio_files
  rw [hff, hdir]
  simp [hemp]

/-- Witness for the amended C3 at the concrete run `envNoWav`. -/
theorem C3_empty_dir_witness :
    (split_audio_files envNoWav).messages = [msgNoWav envNoWav.inputDir]
    ∧ (split_audio_files envNoWav).outputs = []
    ∧ (split_audio_files envNoWav).progressUpdates = []
    ∧ (split_audio_files envNoWav).outputDirCreated = true :=
  C3_empty_dir envNoWav (by decide) (by decide) (by decide)

/-- Counterexample to C6 as stated: in the run `envNoDir` the transcoder is
available and the listing holds a .wav file, yet the batch aborts
immediately (one error, no success, no outputs, no progress) because the
input directory does not exist, an abort case the claim's "only" list
omits. -/
theorem C6_missing_dir_counterexample :
    envNoDir.ffmpegOk = true
    ∧ (wavFiles envNoDir.entries).isEmpty = false
    ∧ (split_audio_files envNoDir).messages =
        [msgNoInputDir envNoDir.inputDir]
    ∧ ((split_audio_files envNoDir).messages.filter isInfoMsg) = []
    ∧ (split_audio_files envNoDir).outputs = []
    ∧ (split_audio_files envNoDir).progressUpdates = [] := by decide

/-- Claim C6 amended: per-file failures never abort the batch; the run
completes (posts the success message) exactly when the transcoder is
available, the input directory exists, and it holds at least one .wav file;
in each of the three aborting cases the batch stops immediately before any
file is processed, with a single message, no outputs and no progress. -/
theorem C6_abort_conditions (env : Env) :
    (((split_audio_files env).messages.filter isInfoMsg ≠ []) ↔
      (env.ffmpegOk = true ∧ env.inputDirExists = true
        ∧ (wavFiles env.entries).isEmpty = false))
    ∧ ((env.ffmpegOk = false ∨ env.inputDirExists = false
        ∨ (wavFiles env.entries).isEmpty = true) →
        (split_audio_files env).messages.length = 1
        ∧ (split_audio_files env).outputs = []
        ∧ (split_audio_files env).progressUpdates = [])
    ∧ ((env.ffmpegOk = true ∧ env.inputDirExists = true
        ∧ (wavFiles env.entries).isEmpty = false) →
        (split_audio_files env).progressUpdates.length =
          (wavFiles env.entries).length + 1) := by
  by_cases hff : env.ffmpegOk = true
  · by_cases hdir : env.inputDirExists = true
    · by_cases hne : (wavFiles env.entries).isEmpty = false
      · rw [split_run hff hdir hne]
        refine ⟨?_, ?_, ?_⟩
        · simp only [List.filter_append, filter_info_flatMap,
            List.nil_append]
          simp [hff, hdir, hne, msgSuccess, isInfoMsg, List.filter]
        · intro h
          rcases h with h | h | h
          · rw [hff] at h; cases h
          · rw [hdir] at h; cases h
          · rw [hne] at h; cases h
        · intro _
          simp
      · have hemp : (wavFiles env.entries).isEmpty = true := by
          simpa using hne
        have hres : split_audio_files env =
            ⟨[msgNoWav env.inputDir], [], [], true⟩ := by
          unfold split_audio_files
          rw [hff, hdir]
          simp [hemp]
        rw [hres]
        refine ⟨?_, fun _ => ⟨rfl, rfl, rfl⟩, ?_⟩
        · simp [isInfoMsg, msgNoWav, List.filter, hemp]
        · intro h
          simp [hemp] at h
    · have hd : env.inputDirExists = false := by simpa using hdir
      have hres : split_audio_files env =
          ⟨[msgNoInputDir env.inputDir], [], [], false⟩ := by
        unfold split_audio_files
        rw [hff, hd]
        rfl
      rw [hres]
      refine ⟨?_, fun _ => ⟨rfl, rfl, rfl⟩, ?_⟩
      · simp [isInfoMsg, msgNoInputDir, List.filter, hd]
      · intro h
        simp [hd] at h
  · have hf2 : env.ffmpegOk = false := by simpa using hff
    have hres : split_audio_files env =
        ⟨[msgFfmpegMissing], [], [], false⟩ := by
      unfold split_audio_files
      rw [hf2]
      rfl
    rw [hres]
    refine ⟨?_, fun _ => ⟨rfl, rfl, rfl⟩, ?_⟩
    · simp [isInfoMsg, msgFfmpegMissing, List.filter, hf2]
    · intro h
      simp [hf2] at h

/-- Witness for the amended C6: at `envGood` the run completes with one
more progress write than files; at `envNoDir` the abort is immediate. -/
theorem C6_abort_conditions_witness :
    ((split_audio_files envGood).progressUpdates.length =
      (wavFiles envGood.entries).length + 1)
    ∧ ((split_audio_files envNoDir).messages.length = 1
        ∧ (split_audio_files envNoDir).outputs = []
        ∧ (split_audio_files envNoDir).progressUpdates = []) :=
  ⟨(C6_abort_conditions envGood).2.2 ⟨rfl, rfl, by decide⟩,
   (C6_abort_conditions envNoDir).2.1 (Or.inr (Or.inl rfl))⟩

end ZQSFX
